import Mathlib

/-!
The Torque declaration visitor.

A shallow embedding of `src/torque/declaration-visitor.h` (class
`DeclarationVisitor`).  Member functions become functions on an explicit
visitor state; the receiver is called `this`.

* Pointers (`const Variable*`, `Module*`, `const Type*`, `Scope*`, AST node
  pointers) are natural numbers: the identity of the object pointed to.
* `std::set<const Variable*>` is a `Finset Variable`; `std::vector<T>` is a
  `List T` whose last element is `back()`.
* A call has one of three outcomes: it returns, it reports an error, or its
  behaviour is undefined (a C++ precondition was violated and nothing in the
  code checks it).
* Functions that are only declared in the header (their bodies live in other
  translation units) are parameters, gathered in `Collaborators`; the parts of
  `Declarations`, `FileVisitor` and `Type` that the header relies on are
  modelled from the specification and marked as such.
-/

namespace Torque

/-! ## Pointers -/

/-- Identity of a `Variable` object (`const Variable*`). -/
abbrev Variable := Nat

/-- Identity of a `Module` object (`Module*`). -/
abbrev Module := Nat

/-- Identity of a canonical type object (`const Type*`). -/
abbrev TypeRef := Nat

/-- Identity of a `Scope` object (`Scope*`). -/
abbrev Scope := Nat

/-- Identity of an expression node (`Expression*`). -/
abbrev Expression := Nat

/-- Identity of a statement node (`Statement*`). -/
abbrev Statement := Nat

/-- Identity of a declaration node (`Declaration*`). -/
abbrev Declaration := Nat

/-- Identity of a `Builtin` object (`Builtin*`). -/
abbrev Builtin := Nat

/-! ## Outcomes -/

/-- Modelled from the spec: the error taxonomy of section 7.  None of these
names occurs in `declaration-visitor.h`; errors are raised by code outside the
header. -/
inductive TorqueError where
  | UnresolvedName
  | DuplicateDeclaration
  | TypeResolutionError
  | InvalidSpecialization
  | MalformedControlFlow
deriving DecidableEq, Repr

/-- Outcome of a call: `ok` when it returns, `error` when an error is reported
(fatal to the pass, so no state survives), `undefined` when a C++ precondition
is violated without any check (for instance `back()` on an empty vector). -/
inductive Outcome (α : Type) where
  | ok (value : α)
  | error (e : TorqueError)
  | undefined
deriving DecidableEq

/-- Sequencing of calls: the second call runs only when the first returned. -/
def Outcome.bind {α β : Type} (r : Outcome α) (f : α → Outcome β) : Outcome β :=
  match r with
  | .ok value => f value
  | .error e => .error e
  | .undefined => .undefined

/-! ## Declarations (scope table) -/

/-- Modelled from the spec: a declaration recorded in a scope (section 3).  Only
the kinds the header's inline code distinguishes are kept apart. -/
inductive Declarable where
  | type_alias (type : TypeRef)
  | variable (v : Variable)
  | other
deriving DecidableEq, Repr

/-- Modelled from the spec: the scope table of section 4.3 (`Declarations` is
declared in `declarations.h`, which is not part of the sources at hand).
`chain` is the stack of active scopes, innermost last; `bindings` gives the
declarations owned by each scope, newest first; `aliases` gives, for each
canonical type object, the alias names it records; `module_scope` and
`node_scope` give the scope object of a module and of a block node. -/
structure Declarations where
  chain : List Scope
  bindings : Scope → List (String × Declarable)
  aliases : TypeRef → Finset String
  module_scope : Module → Scope
  node_scope : Statement → Scope

/-- Modelled from the spec: lookup of a name in one scope only. -/
def Declarations.ShallowLookup (d : Declarations) (scope : Scope) (name : String) :
    Option Declarable :=
  ((d.bindings scope).find? (fun b => b.1 == name)).map Prod.snd

/-- Modelled from the spec: "Name lookup scans innermost to outermost, returns the
first match" (section 4.3). -/
def Declarations.Lookup (d : Declarations) (name : String) : Option Declarable :=
  d.chain.reverse.findSome? (fun scope => d.ShallowLookup scope name)

/-- Modelled from the spec: `Declarations::GetType`, resolution of a type
expression (a type name) to its canonical type object; a name that does not
resolve to a type is a `TypeResolutionError`. -/
def Declarations.GetType (d : Declarations) (type : String) : Outcome TypeRef :=
  match d.Lookup type with
  | some (.type_alias t) => .ok t
  | _ => .error .TypeResolutionError

/-- Modelled from the spec: `Declarations::DeclareType`, binding of a name to a
canonical type object in the current (innermost) scope; a name already bound in
the current scope is a `DuplicateDeclaration`.  The constructor of the visitor
keeps the default module's scope active (`scope_`), so an empty chain violates
a precondition. -/
def Declarations.DeclareType (d : Declarations) (name : String) (type : TypeRef) :
    Outcome Declarations :=
  match d.chain.getLast? with
  | none => .undefined
  | some current =>
    match d.ShallowLookup current name with
    | some _ => .error .DuplicateDeclaration
    | none =>
      .ok { d with
            bindings := fun scope =>
              if scope = current then (name, Declarable.type_alias type) :: d.bindings scope
              else d.bindings scope }

/-- Modelled from the spec: `Type::AddAlias`, the type object `type` records
`name` as one of its aliases. -/
def Declarations.AddAlias (d : Declarations) (type : TypeRef) (name : String) :
    Declarations :=
  { d with aliases := fun t => if t = type then insert name (d.aliases t) else d.aliases t }

/-- Modelled from the spec: `Declarations::GetLiveVariables`, "the current set
of in-scope variables" (section 4.4): the variables declared in the active
scopes. -/
def Declarations.GetLiveVariables (d : Declarations) : Finset Variable :=
  (d.chain.flatMap fun scope =>
    (d.bindings scope).filterMap fun b =>
      match b.2 with
      | .variable v => some v
      | _ => none).toFinset

/-- Modelled from the spec: constructor of a scope activator
(`Declarations::ModuleScopeActivator`, `Declarations::NodeScopeActivator`):
"push on enter". -/
def Declarations.PushScope (d : Declarations) (scope : Scope) : Declarations :=
  { d with chain := d.chain ++ [scope] }

/-- Modelled from the spec: destructor of a scope activator: "pop" of the
innermost active scope. -/
def Declarations.PopScope (d : Declarations) : Declarations :=
  { d with chain := d.chain.dropLast }

/-! ## Visitor state -/

/-- The `struct LiveAndChanged` of the header. -/
structure LiveAndChanged where
  live : Finset Variable
  changed : Finset Variable
deriving DecidableEq

/-- State of a `DeclarationVisitor`.  `global_context_` and `module_` are the
members inherited from `FileVisitor`; the type `G` of the global context is a
parameter (`global-context.h` is not part of the sources at hand).
`declarations` is the object `declarations()` returns.  The member `scope_` is
a scope activator held for the visitor's lifetime; its effect is the default
module's scope at the bottom of `declarations.chain`. -/
structure DeclarationVisitor (G : Type) where
  global_context_ : G
  module_ : Module
  declarations : Declarations
  torque_builtins_ : List Builtin
  live_and_changed_variables_ : List LiveAndChanged

variable {G : Type}

/-! ## Control-split stack -/

/-- `DeclarationVisitor::PushControlSplit`. -/
def PushControlSplit (this : DeclarationVisitor G) : DeclarationVisitor G :=
  let live_and_changed : LiveAndChanged :=
    { live := this.declarations.GetLiveVariables, changed := ∅ }
  { this with
    live_and_changed_variables_ := this.live_and_changed_variables_ ++ [live_and_changed] }

/-- `DeclarationVisitor::PopControlSplit`.  The body calls `back()` and
`pop_back()` without testing for emptiness: on an empty vector the behaviour is
undefined. -/
def PopControlSplit (this : DeclarationVisitor G) :
    Outcome (Finset Variable × DeclarationVisitor G) :=
  match this.live_and_changed_variables_.getLast? with
  | none => .undefined
  | some back =>
    let result := back.changed
    .ok (result,
      { this with live_and_changed_variables_ := this.live_and_changed_variables_.dropLast })

/-- One operation on the control-split stack. -/
inductive ControlSplitOp where
  | push
  | pop
deriving DecidableEq, Repr

/-- A sequence of `PushControlSplit` / `PopControlSplit` calls, in order; the
changed set a pop returns is discarded. -/
def ApplyControlSplitOps :
    List ControlSplitOp → DeclarationVisitor G → Outcome (DeclarationVisitor G)
  | [], this => .ok this
  | .push :: ops, this => ApplyControlSplitOps ops (PushControlSplit this)
  | .pop :: ops, this =>
    (PopControlSplit this).bind fun r => ApplyControlSplitOps ops r.2

/-- A visitor with two active control splits: the outer one was entered with no
variable live; the inner one was entered with variable `1` live and has
recorded a write to it. -/
def nestedSplitVisitor : DeclarationVisitor Unit :=
  { global_context_ := ()
    module_ := 0
    declarations :=
      { chain := [0]
        bindings := fun scope => if scope = 0 then [("x", Declarable.variable 1)] else []
        aliases := fun _ => ∅
        module_scope := fun m => m
        node_scope := fun n => n }
    torque_builtins_ := []
    live_and_changed_variables_ := [⟨∅, ∅⟩, ⟨{1}, {1}⟩] }

/-- A visitor with no active control split. -/
def idleVisitor : DeclarationVisitor Unit :=
  { nestedSplitVisitor with live_and_changed_variables_ := [] }

/-! ## AST nodes

The node classes are declared in `ast.h`; each structure lists the members the
header reads. -/

/-- Node `AssignmentExpression`. -/
structure AssignmentExpression where
  location : Expression
  value : Expression

/-- Node `IncrementDecrementExpression`. -/
structure IncrementDecrementExpression where
  location : Expression

/-- Node `BlockStatement`; `node` is the identity of the block itself. -/
structure BlockStatement where
  node : Statement
  statements : List Statement

/-- Node `ModuleDeclaration`; `module` is what `GetModule()` returns and
`SetModule` assigns. -/
structure ModuleDeclaration where
  module : Module
  declarations : List Declaration

/-- `ModuleDeclaration::SetModule`. -/
def ModuleDeclaration.SetModule (decl : ModuleDeclaration) (m : Module) : ModuleDeclaration :=
  { decl with module := m }

/-- Node `ExplicitModuleDeclaration`: a module declaration with a name. -/
structure ExplicitModuleDeclaration extends ModuleDeclaration where
  name : String

/-- Node `AssertStatement`. -/
structure AssertStatement where
  debug_only : Bool
  expression : Expression

/-- Node `TypeAliasDeclaration`: `type name = type;`. -/
structure TypeAliasDeclaration where
  name : String
  type : String

/-! ## Functions defined outside the header -/

/-- The member functions the header only declares (`Visit(Expression*)`,
`Visit(Statement*)`, `Visit(Declaration*)`, `MarkLocationModified`,
`DeclareExpressionForBranch`) and the `GlobalContext` queries it calls.  Their
bodies are not part of the sources at hand, so they are parameters. -/
structure Collaborators (G : Type) where
  VisitExpression : Expression → DeclarationVisitor G → Outcome (DeclarationVisitor G)
  VisitStatement : Statement → DeclarationVisitor G → Outcome (DeclarationVisitor G)
  VisitDeclaration : Declaration → DeclarationVisitor G → Outcome (DeclarationVisitor G)
  MarkLocationModified : Expression → DeclarationVisitor G → Outcome (DeclarationVisitor G)
  DeclareExpressionForBranch : Expression → DeclarationVisitor G → Outcome (DeclarationVisitor G)
  GetDefaultModule : G → Module
  GetModule : String → G → Module × G

/-- A range-based `for` loop whose body is one call: the calls run in list order
and the loop stops at the first call that does not return. -/
def ForEach {α S : Type} (visit : α → S → Outcome S) : List α → S → Outcome S
  | [], this => .ok this
  | x :: xs, this => (visit x this).bind (ForEach visit xs)

/-! ## Inline visitor functions -/

/-- Modelled from the spec: the guard `ScopedModuleActivator` of `FileVisitor`
(`file-visitor.h` is not part of the sources at hand), a "scoped
acquire/release" of the current module.  The guard holds the module that was
current when it was constructed. -/
structure ScopedModuleActivator where
  saved_module_ : Module

/-- Modelled from the spec: constructor of `ScopedModuleActivator`: remember the
current module and make `module` current. -/
def ScopedModuleActivator.enter (this : DeclarationVisitor G) (module : Module) :
    ScopedModuleActivator × DeclarationVisitor G :=
  (⟨this.module_⟩, { this with module_ := module })

/-- Modelled from the spec: destructor of `ScopedModuleActivator`: "restore the
previous scope on exit". -/
def ScopedModuleActivator.leave (activator : ScopedModuleActivator)
    (this : DeclarationVisitor G) : DeclarationVisitor G :=
  { this with module_ := activator.saved_module_ }

/-- `DeclarationVisitor::Visit(ModuleDeclaration*)`.  The two guards are locals
constructed before the loop; when the function returns they are destroyed in
reverse order of construction: the scope is popped, then the module is
restored. -/
def VisitModuleDeclaration (X : Collaborators G) (decl : ModuleDeclaration)
    (this : DeclarationVisitor G) : Outcome (DeclarationVisitor G) :=
  let entered := ScopedModuleActivator.enter this decl.module
  let activator := entered.1
  let this := entered.2
  let this := { this with
    declarations := this.declarations.PushScope (this.declarations.module_scope decl.module) }
  (ForEach X.VisitDeclaration decl.declarations this).bind fun this =>
    let this := { this with declarations := this.declarations.PopScope }
    .ok (activator.leave this)

/-- `DeclarationVisitor::Visit(DefaultModuleDeclaration*)`; a default module
declaration has the members of a module declaration. -/
def VisitDefaultModuleDeclaration (X : Collaborators G) (decl : ModuleDeclaration)
    (this : DeclarationVisitor G) : Outcome (DeclarationVisitor G) :=
  let decl := decl.SetModule (X.GetDefaultModule this.global_context_)
  VisitModuleDeclaration X decl this

/-- `DeclarationVisitor::Visit(ExplicitModuleDeclaration*)`. -/
def VisitExplicitModuleDeclaration (X : Collaborators G) (decl : ExplicitModuleDeclaration)
    (this : DeclarationVisitor G) : Outcome (DeclarationVisitor G) :=
  let r := X.GetModule decl.name this.global_context_
  let this := { this with global_context_ := r.2 }
  let decl := decl.toModuleDeclaration.SetModule r.1
  VisitModuleDeclaration X decl this

/-- `DeclarationVisitor::Visit(BlockStatement*)`.  The guard is a local
constructed before the loop and destroyed when the function returns. -/
def VisitBlockStatement (X : Collaborators G) (expr : BlockStatement)
    (this : DeclarationVisitor G) : Outcome (DeclarationVisitor G) :=
  let this := { this with
    declarations := this.declarations.PushScope (this.declarations.node_scope expr.node) }
  (ForEach X.VisitStatement expr.statements this).bind fun this =>
    .ok { this with declarations := this.declarations.PopScope }

/-- `DeclarationVisitor::Visit(TypeAliasDeclaration*)`. -/
def VisitTypeAliasDeclaration (decl : TypeAliasDeclaration) (this : DeclarationVisitor G) :
    Outcome (DeclarationVisitor G) :=
  (this.declarations.GetType decl.type).bind fun type =>
    let this := { this with declarations := this.declarations.AddAlias type decl.name }
    (this.declarations.DeclareType decl.name type).bind fun d =>
      .ok { this with declarations := d }

/-- `DeclarationVisitor::Visit(AssertStatement*)`; `DEBUG` tells whether the
preprocessor symbol `DEBUG` is defined in the build. -/
def VisitAssertStatement (DEBUG : Bool) (X : Collaborators G) (stmt : AssertStatement)
    (this : DeclarationVisitor G) : Outcome (DeclarationVisitor G) :=
  let do_check := !stmt.debug_only
  let do_check := if DEBUG then true else do_check
  if do_check then X.DeclareExpressionForBranch stmt.expression this else .ok this

/-- `DeclarationVisitor::Visit(AssignmentExpression*)`. -/
def VisitAssignmentExpression (X : Collaborators G) (expr : AssignmentExpression)
    (this : DeclarationVisitor G) : Outcome (DeclarationVisitor G) :=
  (X.MarkLocationModified expr.location this).bind fun this =>
    (X.VisitExpression expr.location this).bind fun this =>
      X.VisitExpression expr.value this

/-- `DeclarationVisitor::Visit(IncrementDecrementExpression*)`. -/
def VisitIncrementDecrementExpression (X : Collaborators G)
    (expr : IncrementDecrementExpression) (this : DeclarationVisitor G) :
    Outcome (DeclarationVisitor G) :=
  (X.MarkLocationModified expr.location this).bind fun this =>
    X.VisitExpression expr.location this

/-- `DeclarationVisitor::Visit(BreakStatement*)`: the body is empty. -/
def VisitBreakStatement (_stmt : Statement) (this : DeclarationVisitor G) :
    Outcome (DeclarationVisitor G) :=
  .ok this

/-- `DeclarationVisitor::Visit(ContinueStatement*)`: the body is empty. -/
def VisitContinueStatement (_stmt : Statement) (this : DeclarationVisitor G) :
    Outcome (DeclarationVisitor G) :=
  .ok this

/-- `DeclarationVisitor::Visit(GotoStatement*)`: the body is empty. -/
def VisitGotoStatement (_expr : Statement) (this : DeclarationVisitor G) :
    Outcome (DeclarationVisitor G) :=
  .ok this

/-! ## Recording collaborators

An instance of `Collaborators` in which every function outside the header only
appends a record of the call to the global context and returns.  Running an
inline visitor function against it shows which calls it makes, in which order,
and with which module and scope chain active. -/

/-- Record of one call into code outside the header. -/
inductive Call where
  | MarkLocationModified (location : Expression)
  | VisitExpression (expr : Expression)
  | VisitStatement (stmt : Statement) (module_ : Module) (chain : List Scope)
  | VisitDeclaration (decl : Declaration) (module_ : Module) (chain : List Scope)
  | DeclareExpressionForBranch (node : Expression)
  | GetModule (name : String)
deriving DecidableEq, Repr

/-- Append a call record to the log held in the global context. -/
def record (c : Call) (this : DeclarationVisitor (List Call)) :
    Outcome (DeclarationVisitor (List Call)) :=
  .ok { this with global_context_ := this.global_context_ ++ [c] }

/-- The recording collaborators. -/
def Recorder : Collaborators (List Call) where
  VisitExpression := fun expr this => record (.VisitExpression expr) this
  VisitStatement := fun stmt this =>
    record (.VisitStatement stmt this.module_ this.declarations.chain) this
  VisitDeclaration := fun decl this =>
    record (.VisitDeclaration decl this.module_ this.declarations.chain) this
  MarkLocationModified := fun location this => record (.MarkLocationModified location) this
  DeclareExpressionForBranch := fun node this => record (.DeclareExpressionForBranch node) this
  GetDefaultModule := fun _ => 0
  GetModule := fun name g => (name.length + 1, g ++ [Call.GetModule name])

/-! ## Tracker protocol

`MarkVariableModified` and the visits of the control-flow statements are only
declared in the header.  The definitions of this section follow the protocol of
section 4.4 of the specification; they call the header's own
`PushControlSplit` and `PopControlSplit`. -/

/-- Modelled from the spec: `DeclarationVisitor::MarkVariableModified`, whose
body is not part of the sources at hand: "adds `v` to the innermost active
changed set only if `v` was live at that split's entry".  With no split active
nothing is recorded.  The boolean the function returns is not described and is
left out. -/
def MarkVariableModified (var : Variable) (this : DeclarationVisitor G) :
    DeclarationVisitor G :=
  match this.live_and_changed_variables_.getLast? with
  | none => this
  | some back =>
    if var ∈ back.live then
      { this with
        live_and_changed_variables_ :=
          this.live_and_changed_variables_.dropLast ++
            [{ back with changed := insert var back.changed }] }
    else this

/-- Modelled from the spec: the step the caller of `PopControlSplit` performs on
exit from a split: it "folds this set into the enclosing split's changed set".
With no enclosing split there is nothing to fold into. -/
def FoldIntoEnclosing (changed : Finset Variable) (this : DeclarationVisitor G) :
    DeclarationVisitor G :=
  match this.live_and_changed_variables_.getLast? with
  | none => this
  | some back =>
    { this with
      live_and_changed_variables_ :=
        this.live_and_changed_variables_.dropLast ++
          [{ back with changed := back.changed ∪ changed }] }

/-- Modelled from the spec: the statements the tracker protocol of section 4.4
speaks about.  An assignment or increment/decrement is given by the variable
its target resolves to; `early_exit` stands for break, continue, return and
goto; `control_split` is an if, while, for, for-of or try-label statement with
its dependent branches. -/
inductive TrackedStatement where
  | assignment (target : Variable)
  | increment_decrement (target : Variable)
  | early_exit
  | block (statements : List TrackedStatement)
  | control_split (branches : List TrackedStatement)

mutual
/-- Modelled from the spec: the visit of a statement as far as the tracker is
concerned (section 4.4): a write marks its target, an early exit does nothing,
a control split is entered, its branches are visited in order, it is exited and
the changed set is folded into the enclosing split. -/
def VisitTracked : TrackedStatement → DeclarationVisitor G → Outcome (DeclarationVisitor G)
  | .assignment target, this => .ok (MarkVariableModified target this)
  | .increment_decrement target, this => .ok (MarkVariableModified target this)
  | .early_exit, this => .ok this
  | .block statements, this => VisitTrackedList statements this
  | .control_split branches, this =>
    ((VisitTrackedList branches (PushControlSplit this)).bind PopControlSplit).bind
      fun r => .ok (FoldIntoEnclosing r.1 r.2)
/-- Modelled from the spec: the visit of a sequence of statements, or of the
branches of a split, in the order given. -/
def VisitTrackedList :
    List TrackedStatement → DeclarationVisitor G → Outcome (DeclarationVisitor G)
  | [], this => .ok this
  | stmt :: rest, this => (VisitTracked stmt this).bind (VisitTrackedList rest)
end

/-- Modelled from the spec: a control split from entry to exit: enter the split,
visit the branches, exit the split; the value is the changed set
`PopControlSplit` returns together with the visitor state at that point. -/
def ControlSplitChanged (branches : List TrackedStatement) (this : DeclarationVisitor G) :
    Outcome (Finset Variable × DeclarationVisitor G) :=
  (VisitTrackedList branches (PushControlSplit this)).bind PopControlSplit

mutual
/-- Whether the variable is the target of a write somewhere in the statement. -/
def Writes (v : Variable) : TrackedStatement → Bool
  | .assignment target => decide (target = v)
  | .increment_decrement target => decide (target = v)
  | .early_exit => false
  | .block statements => WritesList v statements
  | .control_split branches => WritesList v branches
/-- Whether the variable is the target of a write somewhere in the list. -/
def WritesList (v : Variable) : List TrackedStatement → Bool
  | [] => false
  | stmt :: rest => Writes v stmt || WritesList v rest
end

/-- A visitor with variables `1` (named `x`) and `2` (named `y`) in scope and no
control split active. -/
def xyVisitor : DeclarationVisitor Unit :=
  { global_context_ := ()
    module_ := 0
    declarations :=
      { chain := [0]
        bindings := fun scope =>
          if scope = 0 then [("y", Declarable.variable 2), ("x", Declarable.variable 1)] else []
        aliases := fun _ => ∅
        module_scope := fun m => m
        node_scope := fun n => n }
    torque_builtins_ := []
    live_and_changed_variables_ := [] }

/-- The property of a pop that folds: with at least two frames on the stack, the
pop returns and the new innermost frame's changed set contains both what the
enclosing frame held before the pop and the changed set the pop returned. -/
def PopFoldsIntoEnclosing (this : DeclarationVisitor G) : Prop :=
  ∀ (rest : List LiveAndChanged) (outer inner : LiveAndChanged),
    this.live_and_changed_variables_ = rest ++ [outer, inner] →
    ∃ changed this1 top,
      PopControlSplit this = .ok (changed, this1) ∧
      this1.live_and_changed_variables_.getLast? = some top ∧
      outer.changed ∪ changed ⊆ top.changed

/-- Number of pushes in a sequence of control-split operations. -/
def pushes (ops : List ControlSplitOp) : Nat := ops.count .push

/-- Number of pops in a sequence of control-split operations. -/
def pops (ops : List ControlSplitOp) : Nat := ops.count .pop

/-- No pop of the sequence is applied to an empty stack when the sequence starts
at height `height`: before every position there are at most `height` more pops
than pushes. -/
def NoPopOnEmpty (height : Nat) (ops : List ControlSplitOp) : Prop :=
  ∀ k, k ≤ ops.length → pops (ops.take k) ≤ height + pushes (ops.take k)

/-- A recording visitor: module `1` current, the scope of module `1` active, an
empty call log. -/
def logVisitor : DeclarationVisitor (List Call) :=
  { global_context_ := []
    module_ := 1
    declarations :=
      { chain := [1]
        bindings := fun scope =>
          if scope = 1 then [("int32", Declarable.type_alias 100)] else []
        aliases := fun _ => ∅
        module_scope := fun m => m
        node_scope := fun n => 1000 + n }
    torque_builtins_ := []
    live_and_changed_variables_ := [] }

/-! ## Theorems: control-split stack -/

theorem PopControlSplit_concat (this : DeclarationVisitor G) (s : List LiveAndChanged)
    (f : LiveAndChanged) (h : this.live_and_changed_variables_ = s ++ [f]) :
    PopControlSplit this = .ok (f.changed, { this with live_and_changed_variables_ := s }) := by
  simp [PopControlSplit, h]

theorem PopControlSplit_nil (this : DeclarationVisitor G)
    (h : this.live_and_changed_variables_ = []) : PopControlSplit this = .undefined := by
  simp [PopControlSplit, h]

/-- C1: entering a control split and exiting it at once returns the empty
changed set and gives back the visitor state, hence the stack, as it was before
the push, whatever the stack and the live variables are. -/
theorem C1_push_then_pop (this : DeclarationVisitor G) :
    PopControlSplit (PushControlSplit this) = .ok (∅, this) := by
  rw [PopControlSplit_concat (PushControlSplit this) this.live_and_changed_variables_
    ⟨this.declarations.GetLiveVariables, ∅⟩ rfl]
  rfl

/-- Counterexample to C3 as stated: with an outer split that has recorded
nothing and an inner split that has recorded a write to variable `1`, the pop
returns `{1}` and leaves the outer frame's changed set empty. -/
theorem C3_pop_alone_does_not_fold : ¬ PopFoldsIntoEnclosing nestedSplitVisitor := by
  intro h
  obtain ⟨changed, this1, top, hpop, htop, hsub⟩ := h [] ⟨∅, ∅⟩ ⟨{1}, {1}⟩ rfl
  rw [PopControlSplit_concat nestedSplitVisitor [⟨∅, ∅⟩] ⟨{1}, {1}⟩ rfl] at hpop
  injection hpop with hpop
  injection hpop with h1 h2
  subst h1 h2
  simp at htop
  subst htop
  revert hsub
  decide

/-- C3 (amended): with at least two frames on the stack, `PopControlSplit`
returns the inner frame's changed set and removes that frame only; the
enclosing frame becomes the innermost one and is unchanged, so its changed set
is exactly what it was before the pop. -/
theorem C3_pop_keeps_enclosing_frame (this : DeclarationVisitor G)
    (rest : List LiveAndChanged) (outer inner : LiveAndChanged)
    (h : this.live_and_changed_variables_ = rest ++ [outer, inner]) :
    ∃ this1, PopControlSplit this = .ok (inner.changed, this1) ∧
      this1.live_and_changed_variables_ = rest ++ [outer] ∧
      this1.live_and_changed_variables_.getLast? = some outer ∧
      this1 = { this with live_and_changed_variables_ := rest ++ [outer] } := by
  refine ⟨{ this with live_and_changed_variables_ := rest ++ [outer] }, ?_, rfl, by simp, rfl⟩
  exact PopControlSplit_concat this (rest ++ [outer]) inner (by simp [h])

theorem C3_pop_keeps_enclosing_frame_witness :
    ∃ this1, PopControlSplit nestedSplitVisitor = .ok ({1}, this1) ∧
      this1.live_and_changed_variables_ = [] ++ [⟨∅, ∅⟩] ∧
      this1.live_and_changed_variables_.getLast? = some ⟨∅, ∅⟩ ∧
      this1 = { nestedSplitVisitor with live_and_changed_variables_ := [] ++ [⟨∅, ∅⟩] } :=
  C3_pop_keeps_enclosing_frame nestedSplitVisitor [] ⟨∅, ∅⟩ ⟨{1}, {1}⟩ rfl

/-- Counterexample to C6 as stated: with no control split active the pop does
not report `MalformedControlFlow`. -/
theorem C6_pop_on_empty_reports_nothing :
    idleVisitor.live_and_changed_variables_ = [] ∧
      PopControlSplit idleVisitor ≠ .error .MalformedControlFlow := by
  refine ⟨rfl, ?_⟩
  rw [PopControlSplit_nil idleVisitor rfl]
  intro h
  cases h

/-- C6 (amended): `PopControlSplit` never reports an error.  On a non-empty
stack it returns the innermost frame's changed set and removes that frame; on
an empty stack nothing is checked and the behaviour is undefined. -/
theorem C6_pop_never_reports_an_error (this : DeclarationVisitor G) :
    (∀ e, PopControlSplit this ≠ .error e) ∧
      (this.live_and_changed_variables_ = [] → PopControlSplit this = .undefined) ∧
      (∀ rest back, this.live_and_changed_variables_ = rest ++ [back] →
        PopControlSplit this =
          .ok (back.changed, { this with live_and_changed_variables_ := rest })) := by
  refine ⟨?_, PopControlSplit_nil this, fun rest back h => PopControlSplit_concat this rest back h⟩
  intro e h
  unfold PopControlSplit at h
  split at h <;> cases h

theorem C6_pop_never_reports_an_error_witness :
    PopControlSplit idleVisitor = .undefined ∧
      PopControlSplit nestedSplitVisitor =
        .ok ({1}, { nestedSplitVisitor with live_and_changed_variables_ := [⟨∅, ∅⟩] }) :=
  ⟨(C6_pop_never_reports_an_error idleVisitor).2.1 rfl,
   (C6_pop_never_reports_an_error nestedSplitVisitor).2.2 [⟨∅, ∅⟩] ⟨{1}, {1}⟩ rfl⟩

theorem PushControlSplit_length (this : DeclarationVisitor G) :
    (PushControlSplit this).live_and_changed_variables_.length =
      this.live_and_changed_variables_.length + 1 := by
  simp [PushControlSplit]

theorem PopControlSplit_length (this : DeclarationVisitor G)
    (h : this.live_and_changed_variables_ ≠ []) :
    ∃ changed this1, PopControlSplit this = .ok (changed, this1) ∧
      this1.live_and_changed_variables_.length + 1 =
        this.live_and_changed_variables_.length := by
  obtain ⟨rest, back, hs⟩ : ∃ rest back, this.live_and_changed_variables_ = rest ++ [back] :=
    ⟨this.live_and_changed_variables_.dropLast, this.live_and_changed_variables_.getLast h,
      (List.dropLast_append_getLast h).symm⟩
  exact ⟨back.changed, _, PopControlSplit_concat this rest back hs, by simp [hs]⟩

theorem ApplyControlSplitOps_height (ops : List ControlSplitOp) :
    ∀ (this : DeclarationVisitor G),
      NoPopOnEmpty this.live_and_changed_variables_.length ops →
      ∃ this1, ApplyControlSplitOps ops this = .ok this1 ∧
        this1.live_and_changed_variables_.length + pops ops =
          this.live_and_changed_variables_.length + pushes ops := by
  induction ops with
  | nil => intro this _; exact ⟨this, rfl, by simp [pops, pushes]⟩
  | cons op ops ih =>
    intro this hno
    cases op with
    | push =>
      have hno1 : NoPopOnEmpty (PushControlSplit this).live_and_changed_variables_.length ops := by
        intro k hk
        have := hno (k + 1) (by simpa using hk)
        simp [pops, pushes, List.count_cons] at this ⊢
        rw [PushControlSplit_length]
        omega
      obtain ⟨this1, hrun, hlen⟩ := ih (PushControlSplit this) hno1
      refine ⟨this1, by simpa [ApplyControlSplitOps] using hrun, ?_⟩
      rw [PushControlSplit_length] at hlen
      simp [pops, pushes, List.count_cons] at hlen ⊢
      omega
    | pop =>
      have h1 := hno 1 (by simp)
      simp [pops, pushes, List.count_cons] at h1
      have hne : this.live_and_changed_variables_ ≠ [] := by
        intro h0
        rw [h0] at h1
        simp at h1
      obtain ⟨changed, this0, hpop, hlen0⟩ := PopControlSplit_length this hne
      have hno1 : NoPopOnEmpty this0.live_and_changed_variables_.length ops := by
        intro k hk
        have := hno (k + 1) (by simpa using hk)
        simp [pops, pushes, List.count_cons] at this ⊢
        omega
      obtain ⟨this1, hrun, hlen⟩ := ih this0 hno1
      refine ⟨this1, by simp [ApplyControlSplitOps, hpop, Outcome.bind, hrun], ?_⟩
      simp [pops, pushes, List.count_cons] at hlen ⊢
      omega

/-- C5: `PushControlSplit` makes the stack exactly one frame higher,
`PopControlSplit` on a non-empty stack returns and makes it exactly one frame
lower, and a sequence of pushes and pops that starts from the empty stack and
never pops an empty stack runs to the end with
height = (number of pushes) - (number of pops). -/
theorem C5_stack_height (this : DeclarationVisitor G) (ops : List ControlSplitOp)
    (hempty : this.live_and_changed_variables_ = []) (hno : NoPopOnEmpty 0 ops) :
    (∃ this1, ApplyControlSplitOps ops this = .ok this1 ∧
        pops ops ≤ pushes ops ∧
        this1.live_and_changed_variables_.length = pushes ops - pops ops) ∧
      (∀ s : DeclarationVisitor G,
        (PushControlSplit s).live_and_changed_variables_.length =
          s.live_and_changed_variables_.length + 1) ∧
      (∀ s : DeclarationVisitor G, s.live_and_changed_variables_ ≠ [] →
        ∃ changed s1, PopControlSplit s = .ok (changed, s1) ∧
          s1.live_and_changed_variables_.length + 1 =
            s.live_and_changed_variables_.length) := by
  refine ⟨?_, PushControlSplit_length, PopControlSplit_length⟩
  obtain ⟨this1, hrun, hlen⟩ :=
    ApplyControlSplitOps_height ops this (by simpa [hempty] using hno)
  simp [hempty] at hlen
  exact ⟨this1, hrun, by omega, by omega⟩

theorem C5_stack_height_witness :
    ∃ this1, ApplyControlSplitOps [.push, .push, .pop, .push] idleVisitor = .ok this1 ∧
      pops [.push, .push, .pop, .push] ≤ pushes [.push, .push, .pop, .push] ∧
      this1.live_and_changed_variables_.length =
        pushes [.push, .push, .pop, .push] - pops [.push, .push, .pop, .push] :=
  (C5_stack_height idleVisitor [.push, .push, .pop, .push] rfl (by
    unfold NoPopOnEmpty pops pushes
    decide)).1

/-! ## Theorems: inline visitor functions -/

theorem Outcome.bind_eq_ok {α β : Type} {r : Outcome α} {f : α → Outcome β} {b : β}
    (h : r.bind f = .ok b) : ∃ a, r = .ok a ∧ f a = .ok b := by
  cases r with
  | ok a => exact ⟨a, rfl, h⟩
  | error e => cases h
  | undefined => cases h

theorem ForEach_restores {α : Type} (visit : α → DeclarationVisitor G → Outcome (DeclarationVisitor G))
    (h : ∀ x s s1, visit x s = .ok s1 →
      s1.module_ = s.module_ ∧ s1.declarations.chain = s.declarations.chain) :
    ∀ (xs : List α) (s s1 : DeclarationVisitor G), ForEach visit xs s = .ok s1 →
      s1.module_ = s.module_ ∧ s1.declarations.chain = s.declarations.chain := by
  intro xs
  induction xs with
  | nil =>
    intro s s1 hrun
    cases hrun
    exact ⟨rfl, rfl⟩
  | cons x xs ih =>
    intro s s1 hrun
    obtain ⟨s0, hx, hrest⟩ := Outcome.bind_eq_ok hrun
    obtain ⟨hm0, hc0⟩ := h x s s0 hx
    obtain ⟨hm1, hc1⟩ := ih s0 s1 hrest
    exact ⟨hm1.trans hm0, hc1.trans hc0⟩

theorem ForEach_returns {α : Type} (visit : α → DeclarationVisitor G → Outcome (DeclarationVisitor G))
    (h : ∀ x s, ∃ s1, visit x s = .ok s1) :
    ∀ (xs : List α) (s : DeclarationVisitor G), ∃ s1, ForEach visit xs s = .ok s1 := by
  intro xs
  induction xs with
  | nil => intro s; exact ⟨s, rfl⟩
  | cons x xs ih =>
    intro s
    obtain ⟨s0, hx⟩ := h x s
    obtain ⟨s1, hrest⟩ := ih s0
    exact ⟨s1, by simp [ForEach, hx, Outcome.bind, hrest]⟩

theorem VisitModuleDeclaration_restores (X : Collaborators G)
    (hD : ∀ child s s1, X.VisitDeclaration child s = .ok s1 →
      s1.module_ = s.module_ ∧ s1.declarations.chain = s.declarations.chain)
    (decl : ModuleDeclaration) (this this1 : DeclarationVisitor G)
    (hrun : VisitModuleDeclaration X decl this = .ok this1) :
    this1.module_ = this.module_ ∧ this1.declarations.chain = this.declarations.chain := by
  simp only [VisitModuleDeclaration, ScopedModuleActivator.enter,
    ScopedModuleActivator.leave] at hrun
  obtain ⟨s0, hchildren, hexit⟩ := Outcome.bind_eq_ok hrun
  obtain ⟨_, hc⟩ := ForEach_restores X.VisitDeclaration hD _ _ _ hchildren
  cases hexit
  simp [Declarations.PopScope, Declarations.PushScope, hc] at hc ⊢

theorem VisitModuleDeclaration_returns (X : Collaborators G)
    (hD : ∀ child s, ∃ s1, X.VisitDeclaration child s = .ok s1)
    (decl : ModuleDeclaration) (this : DeclarationVisitor G) :
    ∃ this1, VisitModuleDeclaration X decl this = .ok this1 := by
  simp only [VisitModuleDeclaration, ScopedModuleActivator.enter, ScopedModuleActivator.leave]
  obtain ⟨s0, hchildren⟩ := ForEach_returns X.VisitDeclaration hD decl.declarations
    { this with
      module_ := decl.module
      declarations := this.declarations.PushScope (this.declarations.module_scope decl.module) }
  simp only [hchildren, Outcome.bind]
  exact ⟨_, rfl⟩

theorem ForEach_Recorder_VisitDeclaration (xs : List Declaration) :
    ∀ s : DeclarationVisitor (List Call),
      ForEach Recorder.VisitDeclaration xs s =
        .ok { s with
              global_context_ := s.global_context_ ++
                xs.map fun child => Call.VisitDeclaration child s.module_ s.declarations.chain } := by
  induction xs with
  | nil => intro s; simp [ForEach]
  | cons x xs ih =>
    intro s
    have hx : Recorder.VisitDeclaration x s =
        .ok { s with
              global_context_ := s.global_context_ ++
                [Call.VisitDeclaration x s.module_ s.declarations.chain] } := rfl
    simp only [ForEach, hx, Outcome.bind, ih]
    simp

theorem ForEach_Recorder_VisitStatement (xs : List Statement) :
    ∀ s : DeclarationVisitor (List Call),
      ForEach Recorder.VisitStatement xs s =
        .ok { s with
              global_context_ := s.global_context_ ++
                xs.map fun stmt => Call.VisitStatement stmt s.module_ s.declarations.chain } := by
  induction xs with
  | nil => intro s; simp [ForEach]
  | cons x xs ih =>
    intro s
    have hx : Recorder.VisitStatement x s =
        .ok { s with
              global_context_ := s.global_context_ ++
                [Call.VisitStatement x s.module_ s.declarations.chain] } := rfl
    simp only [ForEach, hx, Outcome.bind, ih]
    simp

theorem VisitModuleDeclaration_Recorder (decl : ModuleDeclaration)
    (log : DeclarationVisitor (List Call)) :
    VisitModuleDeclaration Recorder decl log =
      .ok { log with
            global_context_ := log.global_context_ ++
              decl.declarations.map fun child =>
                Call.VisitDeclaration child decl.module
                  (log.declarations.chain ++ [log.declarations.module_scope decl.module]) } := by
  obtain ⟨g, m, d, b, l⟩ := log
  obtain ⟨chain, bindings, aliases, ms, ns⟩ := d
  simp [VisitModuleDeclaration, ScopedModuleActivator.enter, ScopedModuleActivator.leave,
    ForEach_Recorder_VisitDeclaration, Outcome.bind, Declarations.PopScope,
    Declarations.PushScope]

/-- C8: a module declaration (plain, default or explicit) and a block statement
activate their scope (for a module also the module: the declaration's own
module, the default module for a default module declaration, the module looked
up by name for an explicit one), visit every child once, in source order, with
that module current and that scope innermost, and return with the current
module and the scope chain as they were before the call, provided each child
visit leaves them as it found them.  For every choice of the functions outside
the header each visit is the loop over the children between the entry and the
exit of the guards; the order of the calls and the module and scope the
children see are shown on the recording collaborators. -/
theorem C8_scoped_visit_restores (X : Collaborators G)
    (hD : ∀ child s s1, X.VisitDeclaration child s = .ok s1 →
      s1.module_ = s.module_ ∧ s1.declarations.chain = s.declarations.chain)
    (hS : ∀ child s s1, X.VisitStatement child s = .ok s1 →
      s1.module_ = s.module_ ∧ s1.declarations.chain = s.declarations.chain)
    (decl : ModuleDeclaration) (named : ExplicitModuleDeclaration) (block : BlockStatement)
    (this : DeclarationVisitor G) (log : DeclarationVisitor (List Call)) :
    (∀ this1, VisitModuleDeclaration X decl this = .ok this1 →
        this1.module_ = this.module_ ∧ this1.declarations.chain = this.declarations.chain) ∧
      (∀ this1, VisitDefaultModuleDeclaration X decl this = .ok this1 →
        this1.module_ = this.module_ ∧ this1.declarations.chain = this.declarations.chain) ∧
      (∀ this1, VisitExplicitModuleDeclaration X named this = .ok this1 →
        this1.module_ = this.module_ ∧ this1.declarations.chain = this.declarations.chain) ∧
      (∀ this1, VisitBlockStatement X block this = .ok this1 →
        this1.module_ = this.module_ ∧ this1.declarations.chain = this.declarations.chain) ∧
      ((∀ child s, ∃ s1, X.VisitDeclaration child s = .ok s1) →
        (∃ this1, VisitModuleDeclaration X decl this = .ok this1) ∧
        (∃ this1, VisitDefaultModuleDeclaration X decl this = .ok this1) ∧
        (∃ this1, VisitExplicitModuleDeclaration X named this = .ok this1)) ∧
      ((∀ child s, ∃ s1, X.VisitStatement child s = .ok s1) →
        ∃ this1, VisitBlockStatement X block this = .ok this1) ∧
      VisitModuleDeclaration Recorder decl log =
        .ok { log with
              global_context_ := log.global_context_ ++
                decl.declarations.map fun child =>
                  Call.VisitDeclaration child decl.module
                    (log.declarations.chain ++ [log.declarations.module_scope decl.module]) } ∧
      VisitBlockStatement Recorder block log =
        .ok { log with
              global_context_ := log.global_context_ ++
                block.statements.map fun stmt =>
                  Call.VisitStatement stmt log.module_
                    (log.declarations.chain ++ [log.declarations.node_scope block.node]) } ∧
      VisitDefaultModuleDeclaration Recorder decl log =
        .ok { log with
              global_context_ := log.global_context_ ++
                decl.declarations.map fun child =>
                  Call.VisitDeclaration child (Recorder.GetDefaultModule log.global_context_)
                    (log.declarations.chain ++
                      [log.declarations.module_scope
                        (Recorder.GetDefaultModule log.global_context_)]) } ∧
      VisitExplicitModuleDeclaration Recorder named log =
        .ok { log with
              global_context_ := log.global_context_ ++
                Call.GetModule named.name ::
                  named.declarations.map fun child =>
                    Call.VisitDeclaration child
                      (Recorder.GetModule named.name log.global_context_).1
                      (log.declarations.chain ++
                        [log.declarations.module_scope
                          (Recorder.GetModule named.name log.global_context_).1]) } ∧
      VisitModuleDeclaration X decl this =
        ((ForEach X.VisitDeclaration decl.declarations
            { this with
              module_ := decl.module
              declarations :=
                this.declarations.PushScope (this.declarations.module_scope decl.module) }).bind
          fun s => .ok { s with declarations := s.declarations.PopScope, module_ := this.module_ }) ∧
      VisitDefaultModuleDeclaration X decl this =
        ((ForEach X.VisitDeclaration decl.declarations
            { this with
              module_ := X.GetDefaultModule this.global_context_
              declarations :=
                this.declarations.PushScope
                  (this.declarations.module_scope
                    (X.GetDefaultModule this.global_context_)) }).bind
          fun s => .ok { s with declarations := s.declarations.PopScope, module_ := this.module_ }) ∧
      VisitExplicitModuleDeclaration X named this =
        ((ForEach X.VisitDeclaration named.declarations
            { this with
              global_context_ := (X.GetModule named.name this.global_context_).2
              module_ := (X.GetModule named.name this.global_context_).1
              declarations :=
                this.declarations.PushScope
                  (this.declarations.module_scope
                    (X.GetModule named.name this.global_context_).1) }).bind
          fun s => .ok { s with declarations := s.declarations.PopScope, module_ := this.module_ }) ∧
      VisitBlockStatement X block this =
        ((ForEach X.VisitStatement block.statements
            { this with
              declarations :=
                this.declarations.PushScope (this.declarations.node_scope block.node) }).bind
          fun s => .ok { s with declarations := s.declarations.PopScope }) := by
  refine ⟨?_, ?_, ?_, ?_, ?_, ?_, VisitModuleDeclaration_Recorder decl log, ?_, ?_, ?_,
    rfl, rfl, rfl, rfl⟩
  · exact fun this1 h => VisitModuleDeclaration_restores X hD decl this this1 h
  · exact fun this1 h => VisitModuleDeclaration_restores X hD _ this this1 h
  · intro this1 h
    exact VisitModuleDeclaration_restores X hD _
      { this with global_context_ := (X.GetModule named.name this.global_context_).2 } this1 h
  · intro this1 hrun
    unfold VisitBlockStatement at hrun
    obtain ⟨s0, hchildren, hexit⟩ := Outcome.bind_eq_ok hrun
    obtain ⟨hm, hc⟩ := ForEach_restores X.VisitStatement hS _ _ _ hchildren
    cases hexit
    simp [Declarations.PopScope, Declarations.PushScope, hc] at hm hc ⊢
    exact hm
  · intro hret
    exact ⟨VisitModuleDeclaration_returns X hret decl this,
      VisitModuleDeclaration_returns X hret _ this,
      VisitModuleDeclaration_returns X hret _ _⟩
  · intro hret
    unfold VisitBlockStatement
    obtain ⟨s0, hchildren⟩ := ForEach_returns X.VisitStatement hret block.statements
      { this with
        declarations := this.declarations.PushScope (this.declarations.node_scope block.node) }
    simp only [hchildren, Outcome.bind]
    exact ⟨_, rfl⟩
  · obtain ⟨g, m, d, b, l⟩ := log
    obtain ⟨chain, bindings, aliases, ms, ns⟩ := d
    simp [VisitBlockStatement, ForEach_Recorder_VisitStatement, Outcome.bind,
      Declarations.PopScope, Declarations.PushScope]
  · exact VisitModuleDeclaration_Recorder
      (decl.SetModule (Recorder.GetDefaultModule log.global_context_)) log
  · have h := VisitModuleDeclaration_Recorder
      (named.toModuleDeclaration.SetModule (Recorder.GetModule named.name log.global_context_).1)
      { log with global_context_ := (Recorder.GetModule named.name log.global_context_).2 }
    simp only [VisitExplicitModuleDeclaration, h]
    simp [Recorder, ModuleDeclaration.SetModule]

theorem C8_scoped_visit_restores_witness :
    VisitModuleDeclaration Recorder ⟨7, [10, 11]⟩ logVisitor =
        .ok { logVisitor with
              global_context_ :=
                [Call.VisitDeclaration 10 7 [1, 7], Call.VisitDeclaration 11 7 [1, 7]] } ∧
      VisitBlockStatement Recorder ⟨3, [20, 21]⟩ logVisitor =
        .ok { logVisitor with
              global_context_ :=
                [Call.VisitStatement 20 1 [1, 1003], Call.VisitStatement 21 1 [1, 1003]] } ∧
      VisitDefaultModuleDeclaration Recorder ⟨7, [10, 11]⟩ logVisitor =
        .ok { logVisitor with
              global_context_ :=
                [Call.VisitDeclaration 10 0 [1, 0], Call.VisitDeclaration 11 0 [1, 0]] } ∧
      VisitExplicitModuleDeclaration Recorder ⟨⟨7, [10, 11]⟩, "m"⟩ logVisitor =
        .ok { logVisitor with
              global_context_ :=
                [Call.GetModule "m", Call.VisitDeclaration 10 2 [1, 2],
                 Call.VisitDeclaration 11 2 [1, 2]] } :=
  have h := C8_scoped_visit_restores Recorder
    (fun _ _ _ h => by cases h; exact ⟨rfl, rfl⟩)
    (fun _ _ _ h => by cases h; exact ⟨rfl, rfl⟩)
    ⟨7, [10, 11]⟩ ⟨⟨7, [10, 11]⟩, "m"⟩ ⟨3, [20, 21]⟩ logVisitor logVisitor
  ⟨h.2.2.2.2.2.2.1, h.2.2.2.2.2.2.2.1, h.2.2.2.2.2.2.2.2.1, h.2.2.2.2.2.2.2.2.2.1⟩

/-- C4: for an assignment the calls are, in this order, `MarkLocationModified`
on the target location, the visit of the target location, the visit of the
right-hand value, and nothing else; for an increment/decrement they are
`MarkLocationModified` on the target location, then the visit of the target
location, and nothing else.  A call is made only when the previous one
returned. -/
theorem C4_mark_before_visit (X : Collaborators G) (assign : AssignmentExpression)
    (incdec : IncrementDecrementExpression) (this : DeclarationVisitor G)
    (log : DeclarationVisitor (List Call)) :
    VisitAssignmentExpression Recorder assign log =
        .ok { log with
              global_context_ := log.global_context_ ++
                [Call.MarkLocationModified assign.location,
                 Call.VisitExpression assign.location,
                 Call.VisitExpression assign.value] } ∧
      VisitIncrementDecrementExpression Recorder incdec log =
        .ok { log with
              global_context_ := log.global_context_ ++
                [Call.MarkLocationModified incdec.location,
                 Call.VisitExpression incdec.location] } ∧
      VisitAssignmentExpression X assign this =
        (((X.MarkLocationModified assign.location this).bind
          (X.VisitExpression assign.location)).bind (X.VisitExpression assign.value)) ∧
      VisitIncrementDecrementExpression X incdec this =
        (X.MarkLocationModified incdec.location this).bind (X.VisitExpression incdec.location) := by
  refine ⟨?_, ?_, ?_, rfl⟩
  · simp [VisitAssignmentExpression, Recorder, record, Outcome.bind]
  · simp [VisitIncrementDecrementExpression, Recorder, record, Outcome.bind]
  · unfold VisitAssignmentExpression
    cases X.MarkLocationModified assign.location this <;> rfl

/-- C9: the visit of an assert statement calls `DeclareExpressionForBranch` on
the assertion's expression, once, exactly when the statement is not debug-only
or the build is a debug build; otherwise it returns with the state untouched.
So a debug-only assertion is skipped in a non-debug build and an assertion that
is not debug-only is processed in every build. -/
theorem C9_assert_statement (DEBUG : Bool) (X : Collaborators G) (stmt : AssertStatement)
    (this : DeclarationVisitor G) (log : DeclarationVisitor (List Call)) :
    VisitAssertStatement DEBUG X stmt this =
        (if (!stmt.debug_only || DEBUG) = true
          then X.DeclareExpressionForBranch stmt.expression this
          else .ok this) ∧
      VisitAssertStatement DEBUG Recorder stmt log =
        (if (!stmt.debug_only || DEBUG) = true
          then .ok { log with
                     global_context_ := log.global_context_ ++
                       [Call.DeclareExpressionForBranch stmt.expression] }
          else .ok log) ∧
      VisitAssertStatement false X ⟨true, stmt.expression⟩ this = .ok this ∧
      VisitAssertStatement DEBUG X ⟨false, stmt.expression⟩ this =
        X.DeclareExpressionForBranch stmt.expression this := by
  refine ⟨?_, ?_, rfl, ?_⟩
  · cases DEBUG <;> cases h : stmt.debug_only <;> simp [VisitAssertStatement, h]
  · cases DEBUG <;> cases h : stmt.debug_only <;>
      simp [VisitAssertStatement, h, Recorder, record]
  · cases DEBUG <;> simp [VisitAssertStatement]

/-- C10: the visit of a break, continue or goto statement returns with the
visitor state, hence the control-split stack with every frame's live and
changed sets, exactly as it was; a `PopControlSplit` that follows returns what
it would have returned without the early exit. -/
theorem C10_early_exit_changes_nothing (stmt : Statement) (this : DeclarationVisitor G) :
    VisitBreakStatement stmt this = .ok this ∧
      VisitContinueStatement stmt this = .ok this ∧
      VisitGotoStatement stmt this = .ok this ∧
      (VisitBreakStatement stmt this).bind PopControlSplit = PopControlSplit this ∧
      (VisitContinueStatement stmt this).bind PopControlSplit = PopControlSplit this ∧
      (VisitGotoStatement stmt this).bind PopControlSplit = PopControlSplit this :=
  ⟨rfl, rfl, rfl, rfl, rfl, rfl⟩

/-! ## Theorems: type aliases -/

theorem getLast?_eq_some_split {α : Type} (l : List α) (a : α) (h : l.getLast? = some a) :
    ∃ init, l = init ++ [a] := by
  rcases List.eq_nil_or_concat l with hnil | ⟨init, b, hl⟩
  · subst hnil
    simp at h
  · subst hl
    simp at h
    exact ⟨init, by simp [h]⟩

theorem Declarations.GetType_congr (d d1 : Declarations) (name : String)
    (hc : d1.chain = d.chain)
    (hb : ∀ scope, d1.ShallowLookup scope name = d.ShallowLookup scope name) :
    d1.GetType name = d.GetType name := by
  have hf : (fun scope => d1.ShallowLookup scope name) = fun scope => d.ShallowLookup scope name :=
    funext hb
  unfold Declarations.GetType Declarations.Lookup
  rw [hc, hf]

/-- C7: when the right-hand type of `type A = T` resolves to a type object, the
visit succeeds provided `A` is not already declared in the current scope, and
whenever it succeeds a lookup of `A` and a lookup of `T` both resolve to that
very type object, which records `A` among its aliases. -/
theorem C7_alias_resolves_to_target (decl : TypeAliasDeclaration)
    (this : DeclarationVisitor G) (type : TypeRef)
    (hT : this.declarations.GetType decl.type = .ok type) :
    (∀ current, this.declarations.chain.getLast? = some current →
        this.declarations.ShallowLookup current decl.name = none →
        ∃ this1, VisitTypeAliasDeclaration decl this = .ok this1) ∧
      (∀ this1, VisitTypeAliasDeclaration decl this = .ok this1 →
        this1.declarations.GetType decl.name = .ok type ∧
        this1.declarations.GetType decl.type = .ok type ∧
        decl.name ∈ this1.declarations.aliases type) := by
  constructor
  · intro current hlast hfree
    have hfree1 : (this.declarations.AddAlias type decl.name).ShallowLookup current decl.name =
        none := hfree
    have hlast1 : (this.declarations.AddAlias type decl.name).chain.getLast? = some current :=
      hlast
    simp only [VisitTypeAliasDeclaration, hT, Outcome.bind, Declarations.DeclareType, hlast1,
      hfree1]
    exact ⟨_, rfl⟩
  · intro this1 hrun
    simp only [VisitTypeAliasDeclaration, hT, Outcome.bind] at hrun
    cases hd : (this.declarations.AddAlias type decl.name).DeclareType decl.name type with
    | error e => simp [hd] at hrun
    | undefined => simp [hd] at hrun
    | ok d =>
      simp only [hd] at hrun
      injection hrun with hrun
      subst hrun
      unfold Declarations.DeclareType at hd
      cases hlast : (this.declarations.AddAlias type decl.name).chain.getLast? with
      | none => simp [hlast] at hd
      | some current =>
        simp only [hlast] at hd
        cases hfree : (this.declarations.AddAlias type decl.name).ShallowLookup current decl.name with
        | some b => simp [hfree] at hd
        | none =>
          simp only [hfree] at hd
          injection hd with hd
          subst hd
          obtain ⟨init, hchain⟩ := getLast?_eq_some_split _ _ hlast
          have hname :
              Declarations.GetType
                { this.declarations.AddAlias type decl.name with
                  bindings := fun scope =>
                    if scope = current then
                      (decl.name, Declarable.type_alias type) ::
                        (this.declarations.AddAlias type decl.name).bindings scope
                    else (this.declarations.AddAlias type decl.name).bindings scope }
                decl.name = .ok type := by
            simp [Declarations.GetType, Declarations.Lookup, hchain,
              Declarations.ShallowLookup]
          refine ⟨hname, ?_, ?_⟩
          · by_cases heq : decl.type = decl.name
            · rw [heq]
              exact hname
            · rw [← hT]
              refine Declarations.GetType_congr this.declarations _ decl.type rfl ?_
              intro scope
              by_cases hs : scope = current
              · have hne : (decl.name == decl.type) = false := by
                  simpa using fun h => heq h.symm
                simp [Declarations.ShallowLookup, hs, Declarations.AddAlias, List.find?_cons,
                  hne]
              · simp [Declarations.ShallowLookup, hs, Declarations.AddAlias]
          · simp [Declarations.AddAlias]

theorem C7_alias_resolves_to_target_witness :
    ∃ this1, VisitTypeAliasDeclaration ⟨"int", "int32"⟩ logVisitor = .ok this1 ∧
      this1.declarations.GetType "int" = .ok 100 ∧
      this1.declarations.GetType "int32" = .ok 100 ∧
      "int" ∈ this1.declarations.aliases 100 := by
  have h := C7_alias_resolves_to_target ⟨"int", "int32"⟩ logVisitor 100 (by decide)
  obtain ⟨this1, hrun⟩ := h.1 1 (by decide) (by decide)
  exact ⟨this1, hrun, h.2 this1 hrun⟩

/-! ## Theorems: tracker protocol -/

theorem MarkVariableModified_top (target : Variable) (this : DeclarationVisitor G)
    (s : List LiveAndChanged) (f : LiveAndChanged)
    (h : this.live_and_changed_variables_ = s ++ [f]) :
    ∃ f1, MarkVariableModified target this = { this with live_and_changed_variables_ := s ++ [f1] } ∧
      f1.live = f.live ∧ f.changed ⊆ f1.changed ∧ (target ∈ f.live → target ∈ f1.changed) := by
  by_cases hl : target ∈ f.live
  · refine ⟨{ f with changed := insert target f.changed }, ?_, rfl, ?_, ?_⟩
    · simp [MarkVariableModified, h, hl]
    · exact Finset.subset_insert _ _
    · intro _
      exact Finset.mem_insert_self _ _
  · refine ⟨f, ?_, rfl, Finset.Subset.refl _, fun h1 => absurd h1 hl⟩
    simp [MarkVariableModified, h, hl]
    rw [← h]

theorem FoldIntoEnclosing_top (changed : Finset Variable) (this : DeclarationVisitor G)
    (s : List LiveAndChanged) (f : LiveAndChanged)
    (h : this.live_and_changed_variables_ = s ++ [f]) :
    FoldIntoEnclosing changed this =
      { this with
        live_and_changed_variables_ := s ++ [{ f with changed := f.changed ∪ changed }] } := by
  simp [FoldIntoEnclosing, h]

mutual
theorem VisitTracked_top (v : Variable) :
    ∀ (stmt : TrackedStatement) (this : DeclarationVisitor G) (s : List LiveAndChanged)
      (f : LiveAndChanged), this.live_and_changed_variables_ = s ++ [f] →
      ∃ f1, VisitTracked stmt this = .ok { this with live_and_changed_variables_ := s ++ [f1] } ∧
        f1.live = f.live ∧ f.changed ⊆ f1.changed ∧
        (Writes v stmt = true → v ∈ f.live → v ∈ this.declarations.GetLiveVariables →
          v ∈ f1.changed)
  | .assignment target, this, s, f, h => by
    obtain ⟨f1, hrun, hlive, hsub, hmem⟩ := MarkVariableModified_top target this s f h
    refine ⟨f1, by simp [VisitTracked, hrun], hlive, hsub, ?_⟩
    intro hw hv _
    have : target = v := by simpa [Writes] using hw
    subst this
    exact hmem hv
  | .increment_decrement target, this, s, f, h => by
    obtain ⟨f1, hrun, hlive, hsub, hmem⟩ := MarkVariableModified_top target this s f h
    refine ⟨f1, by simp [VisitTracked, hrun], hlive, hsub, ?_⟩
    intro hw hv _
    have : target = v := by simpa [Writes] using hw
    subst this
    exact hmem hv
  | .early_exit, this, s, f, h => by
    refine ⟨f, ?_, rfl, Finset.Subset.refl _, ?_⟩
    · simp [VisitTracked]
      rw [← h]
    · intro hw
      simp [Writes] at hw
  | .block statements, this, s, f, h => by
    obtain ⟨f1, hrun, hlive, hsub, hmem⟩ := VisitTrackedList_top v statements this s f h
    refine ⟨f1, by simpa [VisitTracked] using hrun, hlive, hsub, ?_⟩
    intro hw
    exact hmem (by simpa [Writes] using hw)
  | .control_split branches, this, s, f, h => by
    obtain ⟨g1, hrun, _, _, hmem⟩ :=
      VisitTrackedList_top v branches (PushControlSplit this) (s ++ [f])
        ⟨this.declarations.GetLiveVariables, ∅⟩ (by simp [PushControlSplit, h])
    refine ⟨{ f with changed := f.changed ∪ g1.changed }, ?_, rfl,
      Finset.subset_union_left, ?_⟩
    · have hpop := PopControlSplit_concat
        { PushControlSplit this with live_and_changed_variables_ := (s ++ [f]) ++ [g1] }
        (s ++ [f]) g1 rfl
      have hfold := FoldIntoEnclosing_top g1.changed
        { PushControlSplit this with live_and_changed_variables_ := s ++ [f] } s f rfl
      simp only [VisitTracked, hrun, Outcome.bind, hpop, hfold]
      rfl
    · intro hw _ hv
      exact Finset.mem_union_right _ (hmem (by simpa [Writes] using hw) hv hv)
theorem VisitTrackedList_top (v : Variable) :
    ∀ (stmts : List TrackedStatement) (this : DeclarationVisitor G) (s : List LiveAndChanged)
      (f : LiveAndChanged), this.live_and_changed_variables_ = s ++ [f] →
      ∃ f1, VisitTrackedList stmts this =
          .ok { this with live_and_changed_variables_ := s ++ [f1] } ∧
        f1.live = f.live ∧ f.changed ⊆ f1.changed ∧
        (WritesList v stmts = true → v ∈ f.live → v ∈ this.declarations.GetLiveVariables →
          v ∈ f1.changed)
  | [], this, s, f, h => by
    refine ⟨f, ?_, rfl, Finset.Subset.refl _, ?_⟩
    · simp [VisitTrackedList]
      rw [← h]
    · intro hw
      simp [WritesList] at hw
  | stmt :: rest, this, s, f, h => by
    obtain ⟨f1, hrun1, hlive1, hsub1, hmem1⟩ := VisitTracked_top v stmt this s f h
    obtain ⟨f2, hrun2, hlive2, hsub2, hmem2⟩ :=
      VisitTrackedList_top v rest { this with live_and_changed_variables_ := s ++ [f1] } s f1 rfl
    refine ⟨f2, ?_, hlive2.trans hlive1, hsub1.trans hsub2, ?_⟩
    · simp only [VisitTrackedList, hrun1, Outcome.bind, hrun2]
    · intro hw hv hg
      simp only [WritesList, Bool.or_eq_true] at hw
      rcases hw with hw | hw
      · exact hsub2 (hmem1 hw hv hg)
      · exact hmem2 hw (hlive1 ▸ hv) hg
end

theorem WritesList_of_mem (v : Variable) (branches : List TrackedStatement)
    (h : ∃ b ∈ branches, Writes v b = true) : WritesList v branches = true := by
  induction branches with
  | nil => simp at h
  | cons b rest ih =>
    obtain ⟨c, hc, hw⟩ := h
    simp only [WritesList, Bool.or_eq_true]
    rcases List.mem_cons.mp hc with hc | hc
    · subst hc
      exact Or.inl hw
    · exact Or.inr (ih ⟨c, hc, hw⟩)

theorem ControlSplitChanged_contains (this : DeclarationVisitor G)
    (branches : List TrackedStatement) (v : Variable)
    (hlive : v ∈ this.declarations.GetLiveVariables)
    (hw : ∃ b ∈ branches, Writes v b = true) :
    ∃ changed, ControlSplitChanged branches this = .ok (changed, this) ∧ v ∈ changed := by
  obtain ⟨g1, hrun, _, _, hmem⟩ :=
    VisitTrackedList_top v branches (PushControlSplit this) this.live_and_changed_variables_
      ⟨this.declarations.GetLiveVariables, ∅⟩ rfl
  refine ⟨g1.changed, ?_, hmem (WritesList_of_mem v branches hw) hlive hlive⟩
  have hpop := PopControlSplit_concat
    { PushControlSplit this with
      live_and_changed_variables_ := this.live_and_changed_variables_ ++ [g1] }
    this.live_and_changed_variables_ g1 rfl
  simp only [ControlSplitChanged, hrun, Outcome.bind, hpop]
  rfl

/-- C2: a variable that is live when a control split is entered and is the
target of a write in one of the split's branches is in the changed set returned
when the split is exited, whichever branch it is and in whatever order the
branches are visited; the stack is then as it was before the split.  For
`if (cond) { x = 1; } else { y = 2; }` with `x` and `y` live the changed set is
exactly `{x, y}`. -/
theorem C2_write_in_one_branch (this : DeclarationVisitor G)
    (branches : List TrackedStatement) (v x y : Variable)
    (hlive : v ∈ this.declarations.GetLiveVariables)
    (hw : ∃ b ∈ branches, Writes v b = true)
    (hx : x ∈ this.declarations.GetLiveVariables)
    (hy : y ∈ this.declarations.GetLiveVariables) :
    (∃ changed, ControlSplitChanged branches this = .ok (changed, this) ∧ v ∈ changed) ∧
      (∀ reordered : List TrackedStatement, reordered.Perm branches →
        ∃ changed, ControlSplitChanged reordered this = .ok (changed, this) ∧ v ∈ changed) ∧
      ControlSplitChanged [.block [.assignment x], .block [.assignment y]] this =
        .ok ({x, y}, this) := by
  refine ⟨ControlSplitChanged_contains this branches v hlive hw, ?_, ?_⟩
  · intro reordered hperm
    obtain ⟨b, hb, hwb⟩ := hw
    exact ControlSplitChanged_contains this reordered v hlive ⟨b, hperm.mem_iff.mpr hb, hwb⟩
  · have hxy : insert y (insert x (∅ : Finset Variable)) = {x, y} := by
      ext a
      simp
      tauto
    simp [ControlSplitChanged, VisitTrackedList, VisitTracked, MarkVariableModified,
      PushControlSplit, PopControlSplit, Outcome.bind, hx, hy]
    exact hxy

theorem C2_write_in_one_branch_witness :
    ControlSplitChanged [.block [.assignment 1], .block [.assignment 2]] xyVisitor =
      .ok ({1, 2}, xyVisitor) :=
  (C2_write_in_one_branch xyVisitor [.block [.assignment 1], .block [.assignment 2]] 1 1 2
    (by decide) ⟨.block [.assignment 1], by simp, rfl⟩ (by decide) (by decide)).2.2

end Torque
